import Mathlib

/-!
Verification of the NBA Hall-of-Fame data pipeline (`player-scraper.py`).

The script is a single-module pandas batch job.  The embedding below models:
* a pandas `Series` of stats as an ordered association list `List (String × ℚ)`
  (pandas allows duplicate labels, and `x[i:j]` slices positionally, so a list
  of key/value pairs is the faithful representation; the numeric values are
  modelled as rationals since the script never computes with them, it only
  copies them around and inserts literal `0.0`),
* the network outcomes of the two stat sources as inductive types consumed by
  the fetch functions (each player triggers exactly one primary call, and at
  most one secondary scrape, so one outcome value per call site is the faithful
  shape; `quit()` on a caught timeout and an uncaught scraping exception both
  terminate the process and are modelled as `none`),
* the two module-level exclusion sets (`inactive_ineligibles`, `never_in_nba`)
  as explicit state threaded through the fetch functions,
* the checkpoint files as an explicit record of optional snapshots.
-/

namespace NbaHof

/-- A roster entry as produced by the roster provider (after the fixed
name-correction table has been applied). -/
structure Row where
  id : Nat
  full_name : String
  last_name : String
  is_active : Bool
deriving DecidableEq

/-- A pandas `Series` of stats: ordered key/value pairs, positional slicing. -/
abbrev Series := List (String × ℚ)

/-- Membership test `k in series`: pandas tests the index (the keys). -/
def containsKey (s : Series) (k : String) : Bool :=
  s.any fun kv => kv.1 == k

/-- The field-goal half of `insert_missing` from the script (the
if/elif/elif chain): re-inserts the shooting-percentage columns that
Basketball Reference omits when the underlying attempt count is zero.
`stats[:10]` etc. are positional slices of the Series. -/
def insert_missing_fg (stats : Series) : Series :=
  if ¬ containsKey stats "FG%" then
    stats.take 10 ++ [("FG%", (0 : ℚ))] ++ (stats.drop 10).take 2
      ++ [("3P%", (0 : ℚ))] ++ (stats.drop 12).take 2
      ++ [("2P%", (0 : ℚ)), ("eFG%", (0 : ℚ))] ++ stats.drop 14
  else if ¬ containsKey stats "3P%" then
    stats.take 13 ++ [("3P%", (0 : ℚ))] ++ stats.drop 13
  else if ¬ containsKey stats "2P%" then
    stats.take 16 ++ [("2P%", (0 : ℚ))] ++ stats.drop 16
  else stats

/-- Model of `insert_missing` from the script: the field-goal if/elif chain above,
then the independent free-throw check on the reassigned series. -/
def insert_missing (stats : Series) : Series :=
  let stats := insert_missing_fg stats
  if ¬ containsKey stats "FT%" then
    stats.take 20 ++ [("FT%", (0 : ℚ))] ++ stats.drop 20
  else stats

/-- The `br_rename` dictionary: Basketball Reference column names to NBA.com
names.  `Series.rename(dict)` leaves keys that are not in the dictionary
unchanged, hence the identity default. -/
def br_rename (k : String) : String :=
  if k = "G" then "GP"
  else if k = "MP" then "MIN"
  else if k = "FG" then "FGM"
  else if k = "FG%" then "FG_PCT"
  else if k = "3P" then "FG3M"
  else if k = "3P%" then "FG3_PCT"
  else if k = "3PA" then "FG3A"
  else if k = "FT" then "FTM"
  else if k = "FT%" then "FT_PCT"
  else if k = "ORB" then "OREB"
  else if k = "DRB" then "DREB"
  else if k = "TRB" then "REB"
  else k

/-- Model of `rename_avgs` from the script: renames a career-average column to its
conventional per-game abbreviation.  `col[0]` / `col[:2]` are modelled with
`String.take`. -/
def rename_avgs (col : String) : String :=
  let rename :=
    if col = "PF" then
      "F"
    else if col = "OREB" ∨ col = "DREB" then
      col.take 2
    else if col.take 1 = "F" then
      col
    else
      col.take 1
  rename ++ "PG"

/-- Model of `Series.rename(f)`: rename every key, keep values and order. -/
def renameKeys (f : String → String) (s : Series) : Series :=
  s.map fun kv => (f kv.1, kv.2)

/-- Model of the playoff column marker: every key gains the `PF_` marker. -/
def withPF (s : Series) : Series :=
  s.map fun kv => ("PF_" ++ kv.1, kv.2)

/-- Model of `clean_avgs` from the script: rename the average columns and slice out the
irrelevant / redundant ones (`iloc[0, 5:8]`, `[0, 9:11]`, `[0, 12:14]`,
`[0, 15:]` of the renamed career row). -/
def clean_avgs (s : Series) : Series :=
  let r := renameKeys rename_avgs s
  (r.drop 5).take 3 ++ (r.drop 9).take 2 ++ (r.drop 12).take 2 ++ r.drop 15

/-- The two module-level exclusion sets.  Both are Python `set`s of full
names. -/
structure ExclState where
  inactive_ineligibles : Finset String
  never_in_nba : Finset String
deriving DecidableEq

/-- A structurally valid response of the primary stats client
(`PlayerCareerStats(...).get_data_frames()`):
frame 0 = per-season rows (only their `SEASON_ID` start years are consumed),
frame 1 = regular-season career aggregate (row 0 consumed),
frame 3 = playoff career aggregate (rows; may be empty). -/
structure PrimaryFrames where
  seasonStarts : List Int
  regular : Series
  playoffs : List Series
deriving DecidableEq

/-- Outcome of one primary-source call. `keyError` is the "no record" signal
(empty page on nba.com). -/
inductive PrimaryResult
  | frames (f : PrimaryFrames)
  | keyError
  | readTimeout
  | connectionError
deriving DecidableEq

/-- The parsed Basketball Reference player page as the scraping code consumes
it: the start year of the last row whose `Season` label matches the
season-format pattern, the career row (the `^\d Yrs?$` row), and the playoff
career row when the playoff table exists. -/
structure BRPage where
  lastSeasonStart : Int
  career : Series
  pfCareer : Option Series
deriving DecidableEq

/-- Outcome of one secondary-source (Basketball Reference) scrape.
`noExactMatch` (no link with the exact name) and `timeout` raise exceptions
that nothing in the script catches, so both abort the run. -/
inductive SecondaryResult
  | page (p : BRPage)
  | noExactMatch
  | timeout
deriving DecidableEq

/-- Slices `stats[5:14]` and `stats[18:-2]` of the renamed BR career totals row. -/
def sliceBRTotals (s : Series) : Series :=
  (s.drop 5).take 9 ++ ((s.drop 18).dropLast).dropLast

/-- Slices `avgs[7:10]`, `avgs[11:13]`, `avgs[18:20]`, `avgs[21:-1]` of the renamed
BR career averages row. -/
def sliceBRAvgs (s : Series) : Series :=
  (s.drop 7).take 3 ++ (s.drop 11).take 2 ++ (s.drop 18).take 2
    ++ (s.drop 21).dropLast

/-- Model of `get_totals` from the script.  Here `none` means the run terminates at this
player: a caught `ReadTimeout`/`ConnectionError` runs `quit()`, and on the
fallback path a missing exact-name link or a scraping timeout raises an
exception that no handler catches — either way the process ends.  On success
it returns the stat fragment together with the updated exclusion sets. -/
def get_totals (row : Row) (season : Int) (pr : PrimaryResult)
    (sec : SecondaryResult) (st : ExclState) : Option (Series × ExclState) :=
  match pr with
  | .readTimeout => none
  | .connectionError => none
  | .keyError =>
    match sec with
    | .noExactMatch => none
    | .timeout => none
    | .page p =>
      let last_season : Int := p.lastSeasonStart + 1
      let st :=
        if season - last_season ≠ 0 ∧ season - last_season ≤ 4 then
          { st with
            inactive_ineligibles := insert row.full_name st.inactive_ineligibles }
        else st
      let totals := renameKeys br_rename (insert_missing p.career)
      match p.pfCareer with
      | some pfRaw =>
        let pf_totals := withPF (renameKeys br_rename (insert_missing pfRaw))
        some (sliceBRTotals totals ++ sliceBRTotals pf_totals, st)
      | none => some (sliceBRTotals totals, st)
  | .frames f =>
    if f.seasonStarts.length = 0 then
      some ([], { st with never_in_nba := insert row.full_name st.never_in_nba })
    else
      let st :=
        if row.is_active = false ∧ season - (f.seasonStarts.getLastD 0 + 1) ≤ 4 then
          { st with
            inactive_ineligibles := insert row.full_name st.inactive_ineligibles }
        else st
      if f.playoffs.length = 0 then
        some (f.regular.drop 3, st)
      else
        some (f.regular.drop 3 ++ withPF (f.playoffs.headI.drop 3), st)

/-- Model of `get_avgs` from the script.  Same outcome shape as `get_totals`; note that
the zero-season branch only prints and returns an empty Series — unlike
`get_totals` it does not touch `never_in_nba` — and that no branch of
`get_avgs` modifies either exclusion set, so the state passes through
unchanged. -/
def get_avgs (row : Row) (pr : PrimaryResult) (sec : SecondaryResult)
    (st : ExclState) : Option (Series × ExclState) :=
  match pr with
  | .readTimeout => none
  | .connectionError => none
  | .keyError =>
    match sec with
    | .noExactMatch => none
    | .timeout => none
    | .page p =>
      let avgs := renameKeys rename_avgs (renameKeys br_rename (insert_missing p.career))
      match p.pfCareer with
      | some pfRaw =>
        let pf_avgs :=
          withPF (renameKeys rename_avgs (renameKeys br_rename (insert_missing pfRaw)))
        some (sliceBRAvgs avgs ++ sliceBRAvgs pf_avgs, st)
      | none => some (sliceBRAvgs avgs, st)
  | .frames f =>
    if f.seasonStarts.length = 0 then
      some ([], st)
    else if f.playoffs.length = 0 then
      some (clean_avgs f.regular, st)
    else
      some (clean_avgs f.regular ++ withPF (clean_avgs f.playoffs.headI), st)

/-- One award row returned by the awards provider: a description and the
`ALL_NBA_TEAM_NUMBER` column (`none` models NaN). -/
structure AwardEntry where
  description : String
  all_nba_team_number : Option String
deriving DecidableEq

/-- Model of `str.isnumeric()` restricted to the ASCII digits that occur in the data. -/
def str_isnumeric (s : String) : Bool :=
  s.length ≠ 0 && s.data.all Char.isDigit

/-- The `team_nums` dictionary; `Series.map(dict)` yields NaN (`none`) for a
key that the dictionary does not contain. -/
def team_nums (s : String) : Option String :=
  if s = "1" then some "1st"
  else if s = "2" then some "2nd"
  else if s = "3" then some "3rd"
  else none

/-- The masked assignment in `get_awards`: rows whose team number is numeric
get `map(team_nums) + " Team " + DESCRIPTION` as their new description.  In
pandas `NaN + " Team " + d` is NaN, so a numeric team number outside the
dictionary turns the description into NaN (`none`); all other rows keep their
description. -/
def fold_description (e : AwardEntry) : Option String :=
  match e.all_nba_team_number with
  | some t =>
    if str_isnumeric t then
      (team_nums t).map fun lab => lab ++ " Team " ++ e.description
    else some e.description
  | none => some e.description

/-- Lexicographic code-point order on character lists (helper for the sorted
index that `groupby` produces). -/
def charsLe : List Char → List Char → Bool
  | [], _ => true
  | _ :: _, [] => false
  | a :: as, b :: bs =>
    if a.val.toNat < b.val.toNat then true
    else if b.val.toNat < a.val.toNat then false
    else charsLe as bs

/-- Lexicographic order on strings (helper for the sorted index that `groupby`
produces). -/
def strLe (a b : String) : Bool :=
  charsLe a.data b.data

/-- Insertion into a sorted list of strings (helper for the sorted index that
`groupby` produces). -/
def insertSorted (a : String) : List String → List String
  | [] => [a]
  | b :: t => if strLe a b then a :: b :: t else b :: insertSorted a t

/-- Insertion sort on strings (helper for the sorted index that `groupby`
produces). -/
def sortStrings : List String → List String
  | [] => []
  | a :: t => insertSorted a (sortStrings t)

/-- Model of `get_awards` from the script: fold the team-tier numbers into the
descriptions, then `groupby("DESCRIPTION").size()` — rows whose description
became NaN are dropped by `groupby`, and the result is one count per distinct
description, indexed in sorted order. -/
def get_awards (entries : List AwardEntry) : List (String × Nat) :=
  let descs := entries.filterMap fold_description
  (sortStrings descs.dedup).map fun d => (d, descs.count d)

/-- A player row of the accumulating cohort DataFrame: the roster identity
columns plus the stat columns concatenated so far. -/
structure PRow where
  base : Row
  stats : Series
deriving DecidableEq

/-- The per-player network outcomes consumed by the totals and averages
stages (each stage issues its own fetch for the player). -/
structure PlayerFetch where
  row : Row
  primary_totals : PrimaryResult
  secondary_totals : SecondaryResult
  primary_avgs : PrimaryResult
  secondary_avgs : SecondaryResult

/-- Model of `df.apply(get_totals, axis=1)` over a cohort: players processed strictly
in order, one fetch each; the first fatal outcome terminates the run
(`none`). -/
def processTotals (season : Int) (ps : List PlayerFetch) (st : ExclState) :
    Option (List PRow × ExclState) :=
  match ps with
  | [] => some ([], st)
  | p :: rest =>
    match get_totals p.row season p.primary_totals p.secondary_totals st with
    | none => none
    | some (s, st1) =>
      match processTotals season rest st1 with
      | none => none
      | some (out, st2) => some (⟨p.row, s⟩ :: out, st2)

/-- Model of `df.apply(get_avgs, axis=1)` over a cohort. -/
def processAvgs (ps : List PlayerFetch) (st : ExclState) :
    Option (List PRow × ExclState) :=
  match ps with
  | [] => some ([], st)
  | p :: rest =>
    match get_avgs p.row p.primary_avgs p.secondary_avgs st with
    | none => none
    | some (s, st1) =>
      match processAvgs rest st1 with
      | none => none
      | some (out, st2) => some (⟨p.row, s⟩ :: out, st2)

/-- Model of `pd.concat([df, applied], axis=1)`: attach a second stage's stat columns
to the rows accumulated so far (rows are aligned positionally — both lists
come from the same roster order). -/
def joinStats (ts as : List PRow) : List PRow :=
  ts.zipWith (fun t a => ⟨t.base, t.stats ++ a.stats⟩) as

/-- The award-count columns that `pd.concat(axis=1)` produces for a cohort:
the union, across all rows, of the award descriptions the awards fetch
counted. -/
def award_columns (rows : List PRow) (awardsOf : Nat → List AwardEntry) :
    List String :=
  ((rows.map fun p => (get_awards (awardsOf p.base.id)).map Prod.fst).flatten).dedup

/-- Model of `pd.concat([df, df.apply(get_awards, axis=1)], axis=1).fillna(0)`: every
award description seen for any row of the cohort becomes a column, and a row
without that award gets the fill value 0. -/
def attach_awards (rows : List PRow) (awardsOf : Nat → List AwardEntry) :
    List PRow :=
  let cols := award_columns rows awardsOf
  rows.map fun p =>
    ⟨p.base,
     p.stats ++ cols.map fun c =>
       (c, ((((get_awards (awardsOf p.base.id)).lookup c).getD 0 : Nat) : ℚ))⟩

/-- Model of `inactive_awards` from the script (the final inactive-cohort stage, after
the csv restore): attach the award counts, then split by full name — the rows
whose name is in `inactive_ineligibles` are saved for the active dataset, and
both exclusion sets are dropped from the eligible dataset.  Returns
(eligible dataset, saved inactive-ineligibles dataset). -/
def inactive_awards (rows : List PRow) (awardsOf : Nat → List AwardEntry)
    (ii nn : Finset String) : List PRow × List PRow :=
  let withAwards := attach_awards rows awardsOf
  let iiDf := withAwards.filter fun p => decide (p.base.full_name ∈ ii)
  ((withAwards.filter fun p => decide (p.base.full_name ∉ ii)).filter
      (fun p => decide (p.base.full_name ∉ nn)),
   iiDf)

/-- Model of `active_awards` from the script (the final active-cohort stage): attach
the award counts and append the saved inactive-ineligibles dataset. -/
def active_awards (rows : List PRow) (awardsOf : Nat → List AwardEntry)
    (iiDf : List PRow) : List PRow :=
  attach_awards rows awardsOf ++ iiDf

/-- The six-stage run: inactive {totals, averages, awards}, then active
{totals, averages, awards}.  The exclusion sets are pickled at the end of the
inactive totals stage, and it is that snapshot that `inactive_awards` reads
back; the in-memory sets keep accumulating through the active cohort but are
never consulted again.  Returns (eligible dataset, ineligible dataset, final
in-memory exclusion sets), or `none` when a fatal fetch ended the run. -/
def pipeline (season : Int) (inacts acts : List PlayerFetch)
    (awardsOf : Nat → List AwardEntry) :
    Option (List PRow × List PRow × ExclState) :=
  match processTotals season inacts ⟨∅, ∅⟩ with
  | none => none
  | some (it, st1) =>
    match processAvgs inacts st1 with
    | none => none
    | some (ia, st2) =>
      let irows := joinStats it ia
      let part := inactive_awards irows awardsOf st1.inactive_ineligibles st1.never_in_nba
      match processTotals season acts st2 with
      | none => none
      | some (at1, st3) =>
        match processAvgs acts st3 with
        | none => none
        | some (aa, st4) =>
          some (part.1, active_awards (joinStats at1 aa) awardsOf part.2, st4)

/-- The checkpoint files on disk that the inactive totals stage owns:
`eligible_player_data.csv`, `inactive_ineligibles.pkl`, `never_in_nba.pkl`
(`none` = file not yet written). -/
structure Checkpoints where
  eligible_csv : Option (List PRow)
  ii_pkl : Option (Finset String)
  nn_pkl : Option (Finset String)
deriving DecidableEq

/-- Model of `inactive_totals` from the script as a transformer of the on-disk
checkpoint files: the csv and both pickles are written only after every
player of the cohort has been processed; if the run terminates at some player
(`processTotals` is `none`), no write has happened and the files keep their
prior contents. -/
def inactive_totals_run (season : Int) (ps : List PlayerFetch)
    (fs : Checkpoints) : Checkpoints :=
  match processTotals season ps ⟨∅, ∅⟩ with
  | none => fs
  | some (out, st) =>
    ⟨some out, some st.inactive_ineligibles, some st.never_in_nba⟩

end NbaHof

namespace NbaHof

/-! ### Helper lemmas about the Series embedding -/

theorem containsKey_append (s t : Series) (k : String) :
    containsKey (s ++ t) k = (containsKey s k || containsKey t k) :=
  List.any_append

theorem containsKey_false_iff (s : Series) (k : String) :
    containsKey s k = false ↔ ∀ kv ∈ s, ¬ kv.1 = k := by
  simp [containsKey, List.any_eq_false]

theorem containsKey_false_of_sublist {s t : Series} {k : String}
    (h : s.Sublist t) (ht : containsKey t k = false) : containsKey s k = false := by
  rw [containsKey_false_iff] at ht ⊢
  exact fun kv hkv => ht kv (h.subset hkv)

theorem sublist_insertAt (l : Series) (n : Nat) (xs : Series) :
    l.Sublist (l.take n ++ xs ++ l.drop n) := by
  conv_lhs => rw [← List.take_append_drop n l]
  rw [List.append_assoc]
  exact (List.Sublist.refl _).append (List.sublist_append_right xs (l.drop n))

end NbaHof

namespace NbaHof

/-- Claim C7: the rename function for average-stat columns: `PF` maps to
`FPG` (second letter plus the per-game suffix); `OREB`/`DREB` keep their
first two letters plus the suffix; any other column starting with `F` (the
shooting stats) keeps its full code plus the suffix; every other column
reduces to its first letter plus the suffix. -/
theorem c7_rename_rules (col : String) :
    rename_avgs "PF" = "F" ++ "PG" ∧
    rename_avgs "OREB" = "OR" ++ "PG" ∧
    rename_avgs "DREB" = "DR" ++ "PG" ∧
    (col ≠ "PF" → col ≠ "OREB" → col ≠ "DREB" → col.take 1 = "F" →
      rename_avgs col = col ++ "PG") ∧
    (col ≠ "PF" → col ≠ "OREB" → col ≠ "DREB" → col.take 1 ≠ "F" →
      rename_avgs col = col.take 1 ++ "PG") := by
  refine ⟨by decide, by decide, by decide, ?_, ?_⟩ <;>
    · intro h1 h2 h3 h4
      simp [rename_avgs, h1, h2, h3, h4]

/-- Claim C7 witness: the rules evaluated on a shooting stat and a counting
stat. -/
theorem c7_rename_rules_witness :
    rename_avgs "FG_PCT" = "FG_PCT" ++ "PG" ∧
    rename_avgs "PTS" = "PTS".take 1 ++ "PG" :=
  ⟨(c7_rename_rules "FG_PCT").2.2.2.1 (by decide) (by decide) (by decide) (by decide),
   (c7_rename_rules "PTS").2.2.2.2 (by decide) (by decide) (by decide) (by decide)⟩

/-- Claim C6 (corrected part): in the averages stage a structurally valid
primary response with zero career seasons leaves the exclusion sets
untouched: the player "Gary" is not recorded in `never_in_nba` by
`get_avgs`, contradicting the claim that the player is recorded in the
never-qualified exclusion set in every stage. -/
theorem c6_zero_seasons_counterexample :
    get_avgs ⟨1, "Gary", "G", true⟩ (.frames ⟨[], [], []⟩) .timeout ⟨∅, ∅⟩ =
      some ([], ⟨∅, ∅⟩) ∧
    "Gary" ∉ (ExclState.mk ∅ ∅).never_in_nba := by
  exact ⟨by decide, by decide⟩

/-- Claim C6 as amended: a structurally valid primary response with zero
career seasons is never fatal: the totals-stage fetch records the player in
`never_in_nba` and returns the empty fragment, the averages-stage fetch
returns the empty fragment but leaves the exclusion sets unchanged (the
recording happens in the totals stage only), and in both stages processing
continues with the remaining players. -/
theorem c6_zero_seasons_amended (row : Row) (season : Int) (reg : Series)
    (po : List Series) (sec : SecondaryResult) (st : ExclState)
    (pt : PrimaryResult) (sect : SecondaryResult) (rest : List PlayerFetch) :
    get_totals row season (.frames ⟨[], reg, po⟩) sec st =
      some ([], { st with never_in_nba := insert row.full_name st.never_in_nba }) ∧
    row.full_name ∈ insert row.full_name st.never_in_nba ∧
    get_avgs row (.frames ⟨[], reg, po⟩) sec st = some ([], st) ∧
    (∀ out : List PRow × ExclState,
      processTotals season rest
          { st with never_in_nba := insert row.full_name st.never_in_nba } = some out →
      processTotals season
          (⟨row, .frames ⟨[], reg, po⟩, sec, pt, sect⟩ :: rest) st =
        some (⟨row, []⟩ :: out.1, out.2)) := by
  refine ⟨by simp [get_totals], Finset.mem_insert_self _ _, by simp [get_avgs], ?_⟩
  intro out h
  simp [processTotals, get_totals, h]

/-- Claim C6 witness: the amended statement evaluated for a concrete
zero-season player followed by one more player. -/
theorem c6_zero_seasons_witness :
    processTotals 2025
        [⟨⟨1, "Gary", "G", true⟩, .frames ⟨[], [], []⟩, .timeout, .readTimeout, .timeout⟩,
         ⟨⟨2, "Hal", "H", true⟩, .frames ⟨[2024], [("A", 1), ("B", 2), ("C", 3), ("D", 4)], []⟩,
          .timeout, .readTimeout, .timeout⟩] ⟨∅, ∅⟩ =
      some ([⟨⟨1, "Gary", "G", true⟩, []⟩,
             ⟨⟨2, "Hal", "H", true⟩, [("D", 4)]⟩], ⟨∅, {"Gary"}⟩) :=
  (c6_zero_seasons_amended ⟨1, "Gary", "G", true⟩ 2025 [] [] .timeout ⟨∅, ∅⟩
      .readTimeout .timeout
      [⟨⟨2, "Hal", "H", true⟩, .frames ⟨[2024], [("A", 1), ("B", 2), ("C", 3), ("D", 4)], []⟩,
        .timeout, .readTimeout, .timeout⟩]).2.2.2
    ([⟨⟨2, "Hal", "H", true⟩, [("D", 4)]⟩], ⟨∅, {"Gary"}⟩) (by decide)

/-- Claim C1 (corrected part): on the secondary-scrape fallback path the
active flag is not consulted: an active player ("Alice Smith",
`is_active = true`) whose final recorded season start is 2022, with
reference season 2025 (gap `2025 - (2022 + 1) = 2 ≤ 4`), is added to the
recent-retiree set `inactive_ineligibles`, contradicting the claim that an
active player is never marked recent-retiree on the fallback path. -/
theorem c1_eligibility_counterexample :
    (Row.mk 7 "Alice Smith" "Smith" true).is_active = true ∧
    get_totals ⟨7, "Alice Smith", "Smith", true⟩ 2025 .keyError
        (.page ⟨2022, [], none⟩) ⟨∅, ∅⟩ =
      some ([], ⟨{"Alice Smith"}, ∅⟩) ∧
    "Alice Smith" ∈ ({"Alice Smith"} : Finset String) := by
  exact ⟨rfl, by decide, by decide⟩

/-- Claim C1 as amended: with gap = reference season − (final recorded
season start + 1): on the primary-source path a player is marked
recent-retiree exactly when the player is inactive and gap ≤ 4 (so gap 4
marks, gap 5 does not, an active player is never marked); on the
secondary-scrape path the active flag is not consulted and the player is
marked exactly when gap ≠ 0 and gap ≤ 4 (so gap 4 marks and gap 5 does not,
but an active player with 1 ≤ gap ≤ 4 is marked and an inactive player with
gap 0 is not). -/
theorem c1_eligibility_amended (row : Row) (season : Int) (f : PrimaryFrames)
    (sec : SecondaryResult) (p : BRPage) (st : ExclState)
    (hseasons : f.seasonStarts ≠ [])
    (hname : row.full_name ∉ st.inactive_ineligibles) :
    (∀ out : Series × ExclState,
      get_totals row season (.frames f) sec st = some out →
      (row.full_name ∈ out.2.inactive_ineligibles ↔
        row.is_active = false ∧ season - (f.seasonStarts.getLastD 0 + 1) ≤ 4)) ∧
    get_totals row season (.frames f) sec st ≠ none ∧
    (∀ out : Series × ExclState,
      get_totals row season .keyError (.page p) st = some out →
      (row.full_name ∈ out.2.inactive_ineligibles ↔
        season - (p.lastSeasonStart + 1) ≠ 0 ∧ season - (p.lastSeasonStart + 1) ≤ 4)) ∧
    get_totals row season .keyError (.page p) st ≠ none := by
  have hlen : ¬ f.seasonStarts.length = 0 := by
    simpa [List.length_eq_zero] using hseasons
  refine ⟨?_, ?_, ?_, ?_⟩
  · intro out h
    by_cases hmark : row.is_active = false ∧ season - (f.seasonStarts.getLastD 0 + 1) ≤ 4
    · by_cases hpo : f.playoffs.length = 0 <;>
        · simp only [get_totals, if_neg hlen, if_pos hmark, hpo, if_true, if_false,
            reduceIte, Option.some.injEq] at h
          rw [← h]
          exact iff_of_true (Finset.mem_insert_self _ _) hmark
    · by_cases hpo : f.playoffs.length = 0 <;>
        · simp only [get_totals, if_neg hlen, if_neg hmark, hpo, if_true, if_false,
            reduceIte, Option.some.injEq] at h
          rw [← h]
          exact iff_of_false hname hmark
  · by_cases hpo : f.playoffs.length = 0 <;>
      simp [get_totals, hlen, hpo]
  · intro out h
    by_cases hmark : season - (p.lastSeasonStart + 1) ≠ 0 ∧ season - (p.lastSeasonStart + 1) ≤ 4
    · cases hpf : p.pfCareer with
      | some pfRaw =>
        simp only [get_totals, hpf, if_pos hmark, Option.some.injEq] at h
        rw [← h]
        exact iff_of_true (Finset.mem_insert_self _ _) hmark
      | none =>
        simp only [get_totals, hpf, if_pos hmark, Option.some.injEq] at h
        rw [← h]
        exact iff_of_true (Finset.mem_insert_self _ _) hmark
    · cases hpf : p.pfCareer with
      | some pfRaw =>
        simp only [get_totals, hpf, if_neg hmark, Option.some.injEq] at h
        rw [← h]
        exact iff_of_false hname hmark
      | none =>
        simp only [get_totals, hpf, if_neg hmark, Option.some.injEq] at h
        rw [← h]
        exact iff_of_false hname hmark
  · cases hpf : p.pfCareer <;> simp [get_totals, hpf]

/-- Claim C1 witness: the amended characterization evaluated for an inactive
player at the gap-4 boundary on both paths. -/
theorem c1_eligibility_witness :
    ("Bob" ∈ (ExclState.mk {"Bob"} ∅).inactive_ineligibles ↔
      (Row.mk 3 "Bob" "B" false).is_active = false ∧
        (2025 : Int) - (([2020] : List Int).getLastD 0 + 1) ≤ 4) ∧
    ("Bob" ∈ (ExclState.mk {"Bob"} ∅).inactive_ineligibles ↔
      (2025 : Int) - ((2020 : Int) + 1) ≠ 0 ∧ (2025 : Int) - ((2020 : Int) + 1) ≤ 4) :=
  ⟨(c1_eligibility_amended ⟨3, "Bob", "B", false⟩ 2025
      ⟨[2020], [("A", 1), ("B", 2), ("C", 3), ("D", 4)], []⟩ .timeout
      ⟨2020, [], none⟩ ⟨∅, ∅⟩ (by decide) (by decide)).1
    ([("D", 4)], ⟨{"Bob"}, ∅⟩) (by decide),
   (c1_eligibility_amended ⟨3, "Bob", "B", false⟩ 2025
      ⟨[2020], [("A", 1), ("B", 2), ("C", 3), ("D", 4)], []⟩ .timeout
      ⟨2020, [], none⟩ ⟨∅, ∅⟩ (by decide) (by decide)).2.2.1
    ([], ⟨{"Bob"}, ∅⟩) (by decide)⟩

end NbaHof

namespace NbaHof

/-- Claim C5: a network timeout or connection error from either source is
fatal to the whole run: once every player before the failing one has
succeeded, the totals stage terminates at the failing player — whatever
players would have followed, they are not processed — and the stage writes
nothing, so the previously written checkpoint files are untouched; the
averages-stage fetch terminates the run on the same outcomes.  (The
embedding gives each player a single fetch outcome per call site, so no
retry can be expressed: the first outcome is final.) -/
theorem c5_timeout_fatal (season : Int) (pre post : List PlayerFetch)
    (p : PlayerFetch) (st : ExclState) (fs : Checkpoints)
    (hpre : ∀ q ∈ pre, ∀ s : ExclState,
      get_totals q.row season q.primary_totals q.secondary_totals s ≠ none)
    (hp : p.primary_totals = .readTimeout ∨ p.primary_totals = .connectionError ∨
      (p.primary_totals = .keyError ∧ p.secondary_totals = .timeout)) :
    processTotals season (pre ++ p :: post) st = none ∧
    inactive_totals_run season (pre ++ p :: post) fs = fs ∧
    (∀ (row : Row) (sec : SecondaryResult) (s : ExclState),
      get_avgs row .readTimeout sec s = none ∧
      get_avgs row .connectionError sec s = none) := by
  have hfatal : ∀ s : ExclState,
      get_totals p.row season p.primary_totals p.secondary_totals s = none := by
    intro s
    rcases hp with h1 | h1 | ⟨h1, h2⟩
    · rw [h1]; rfl
    · rw [h1]; rfl
    · rw [h1, h2]; rfl
  have hmain : ∀ (pre' : List PlayerFetch) (st : ExclState),
      processTotals season (pre' ++ p :: post) st = none := by
    intro pre'
    induction pre' with
    | nil =>
      intro st
      simp only [List.nil_append, processTotals, hfatal st]
    | cons q rest ih =>
      intro st
      rw [List.cons_append]
      simp only [processTotals, ih]
      cases get_totals q.row season q.primary_totals q.secondary_totals st with
      | none => rfl
      | some out => rfl
  refine ⟨hmain pre st, ?_, ?_⟩
  · rw [inactive_totals_run, hmain pre ⟨∅, ∅⟩]
  · intro row sec s
    exact ⟨rfl, rfl⟩

/-- Claim C5 witness: the fatality statement evaluated on a one-player roster
whose primary fetch times out, with a populated checkpoint record. -/
theorem c5_timeout_fatal_witness :
    processTotals 2025
        [⟨⟨9, "Tim", "T", false⟩, .readTimeout, .timeout, .readTimeout, .timeout⟩] ⟨∅, ∅⟩ =
      none ∧
    inactive_totals_run 2025
        [⟨⟨9, "Tim", "T", false⟩, .readTimeout, .timeout, .readTimeout, .timeout⟩]
        ⟨some [], some {"A"}, some ∅⟩ =
      ⟨some [], some {"A"}, some ∅⟩ ∧
    (∀ (row : Row) (sec : SecondaryResult) (s : ExclState),
      get_avgs row .readTimeout sec s = none ∧
      get_avgs row .connectionError sec s = none) :=
  c5_timeout_fatal 2025 [] []
    ⟨⟨9, "Tim", "T", false⟩, .readTimeout, .timeout, .readTimeout, .timeout⟩ ⟨∅, ∅⟩
    ⟨some [], some {"A"}, some ∅⟩
    (by intro q hq; exact absurd hq (List.not_mem_nil q)) (Or.inl rfl)

end NbaHof

namespace NbaHof

/-! ### Lemmas about `insert_missing` -/

theorem insert_missing_fg_keeps_FT {s : Series}
    (h : containsKey s "FT%" = false) :
    containsKey (insert_missing_fg s) "FT%" = false := by
  have hsub : ∀ {l : Series}, l.Sublist s → containsKey l "FT%" = false :=
    fun hl => containsKey_false_of_sublist hl h
  simp only [insert_missing_fg]
  by_cases h1 : ¬ (containsKey s "FG%" = true)
  · rw [if_pos h1]
    simp only [containsKey_append]
    rw [hsub (List.take_sublist 10 s),
      hsub ((List.take_sublist 2 _).trans (List.drop_sublist 10 s)),
      hsub ((List.take_sublist 2 _).trans (List.drop_sublist 12 s)),
      hsub (List.drop_sublist 14 s)]
    rfl
  · rw [if_neg h1]
    by_cases h2 : ¬ (containsKey s "3P%" = true)
    · rw [if_pos h2]
      simp only [containsKey_append]
      rw [hsub (List.take_sublist 13 s), hsub (List.drop_sublist 13 s)]
      rfl
    · rw [if_neg h2]
      by_cases h3 : ¬ (containsKey s "2P%" = true)
      · rw [if_pos h3]
        simp only [containsKey_append]
        rw [hsub (List.take_sublist 16 s), hsub (List.drop_sublist 16 s)]
        rfl
      · rw [if_neg h3]
        exact h

theorem insert_missing_mem_FT {s : Series} (h : containsKey s "FT%" = false) :
    ("FT%", (0 : ℚ)) ∈ insert_missing s := by
  have h2 := insert_missing_fg_keeps_FT h
  simp only [insert_missing]
  rw [if_pos (by simp [h2])]
  simp [List.mem_append]

/-- Claim C2: for a secondary-source stat series lacking the
field-goal-percentage column (and hence, as the source omits them together,
its dependents), normalization produces a series with `FG%` at slot 10,
`3P%` at slot 13, `2P%` at slot 16, `eFG%` at slot 17, all with value 0.0 —
the ordinal slots these columns occupy in a full Basketball Reference career
row — and `FT%` with value 0.0 at slot 20; moreover the free-throw insertion
is checked independently of the field-goal branch: any series lacking `FT%`
receives the `("FT%", 0.0)` entry. -/
theorem c2_zero_attempt_insertion (stats : Series)
    (hFG : containsKey stats "FG%" = false)
    (hFT : containsKey stats "FT%" = false)
    (hlen : 16 ≤ stats.length) :
    (insert_missing stats)[10]? = some ("FG%", (0 : ℚ)) ∧
    (insert_missing stats)[13]? = some ("3P%", (0 : ℚ)) ∧
    (insert_missing stats)[16]? = some ("2P%", (0 : ℚ)) ∧
    (insert_missing stats)[17]? = some ("eFG%", (0 : ℚ)) ∧
    (insert_missing stats)[20]? = some ("FT%", (0 : ℚ)) ∧
    (∀ s : Series, containsKey s "FT%" = false →
      ("FT%", (0 : ℚ)) ∈ insert_missing s) := by
  have hfg_eq : insert_missing_fg stats =
      stats.take 10 ++ [("FG%", (0 : ℚ))] ++ (stats.drop 10).take 2
        ++ [("3P%", (0 : ℚ))] ++ (stats.drop 12).take 2
        ++ [("2P%", (0 : ℚ)), ("eFG%", (0 : ℚ))] ++ stats.drop 14 := by
    simp only [insert_missing_fg]
    rw [if_pos (by simp [hFG])]
  have hmidFT : containsKey (insert_missing_fg stats) "FT%" = false :=
    insert_missing_fg_keeps_FT hFT
  have hins : insert_missing stats =
      (insert_missing_fg stats).take 20 ++ [("FT%", (0 : ℚ))]
        ++ (insert_missing_fg stats).drop 20 := by
    simp only [insert_missing]
    rw [if_pos (by simp [hmidFT])]
  have e1 : (stats.take 10).length = 10 := by rw [List.length_take]; omega
  have e2 : ((stats.drop 10).take 2).length = 2 := by
    rw [List.length_take, List.length_drop]; omega
  have e3 : ((stats.drop 12).take 2).length = 2 := by
    rw [List.length_take, List.length_drop]; omega
  have hmidlen : 20 ≤ (insert_missing_fg stats).length := by
    rw [hfg_eq]
    simp only [List.length_append, e1, e2, e3, List.length_cons, List.length_nil,
      List.length_drop]
    omega
  have etake : ((insert_missing_fg stats).take 20).length = 20 := by
    rw [List.length_take]; omega
  have m10 : (insert_missing_fg stats)[10]? = some ("FG%", (0 : ℚ)) := by
    rw [hfg_eq]
    simp [List.getElem?_append, List.getElem_append, e1, e2, e3]
  have m13 : (insert_missing_fg stats)[13]? = some ("3P%", (0 : ℚ)) := by
    rw [hfg_eq]
    simp [List.getElem?_append, List.getElem_append, e1, e2, e3]
  have m16 : (insert_missing_fg stats)[16]? = some ("2P%", (0 : ℚ)) := by
    rw [hfg_eq]
    simp [List.getElem?_append, List.getElem_append, e1, e2, e3]
  have m17 : (insert_missing_fg stats)[17]? = some ("eFG%", (0 : ℚ)) := by
    rw [hfg_eq]
    simp [List.getElem?_append, List.getElem_append, e1, e2, e3]
  have hlt : ∀ i, i < 20 →
      (insert_missing stats)[i]? = (insert_missing_fg stats)[i]? := by
    intro i hi
    rw [hins]
    simp [List.getElem?_append, etake, List.getElem?_take, hi]
  refine ⟨?_, ?_, ?_, ?_, ?_, fun s hs => insert_missing_mem_FT hs⟩
  · exact (hlt 10 (by omega)).trans m10
  · exact (hlt 13 (by omega)).trans m13
  · exact (hlt 16 (by omega)).trans m16
  · exact (hlt 17 (by omega)).trans m17
  · rw [hins]
    simp [List.getElem?_append, List.getElem_append, etake]

/-- A concrete Basketball Reference career-totals row of a player with zero
field-goal and free-throw attempts: every percentage column is absent. -/
def c2stats : Series :=
  [("Season", 1), ("Age", 2), ("Tm", 3), ("Lg", 4), ("Pos", 5), ("G", 6),
   ("GS", 7), ("MP", 8), ("FG", 9), ("FGA", 10), ("3P", 11), ("3PA", 12),
   ("2P", 13), ("2PA", 14), ("FT", 15), ("FTA", 16)]

/-- Claim C2 witness: the insertion slots evaluated on the concrete row. -/
theorem c2_zero_attempt_insertion_witness :
    (insert_missing c2stats)[10]? = some ("FG%", (0 : ℚ)) ∧
    (insert_missing c2stats)[13]? = some ("3P%", (0 : ℚ)) ∧
    (insert_missing c2stats)[16]? = some ("2P%", (0 : ℚ)) ∧
    (insert_missing c2stats)[17]? = some ("eFG%", (0 : ℚ)) ∧
    (insert_missing c2stats)[20]? = some ("FT%", (0 : ℚ)) ∧
    ("FT%", (0 : ℚ)) ∈ insert_missing c2stats := by
  have h := c2_zero_attempt_insertion c2stats (by decide) (by decide) (by decide)
  exact ⟨h.1, h.2.1, h.2.2.1, h.2.2.2.1, h.2.2.2.2.1,
    h.2.2.2.2.2 c2stats (by decide)⟩

end NbaHof

namespace NbaHof

theorem drop_drop_eq (stats : Series) : (stats.drop 10).drop 2 = stats.drop 12 := by
  rw [List.drop_drop]

theorem drop_drop_eq14 (stats : Series) : (stats.drop 12).drop 2 = stats.drop 14 := by
  rw [List.drop_drop]

theorem sublist_lift (x X Y : Series) (h : X.Sublist Y) : X.Sublist (x ++ Y) :=
  h.trans (List.sublist_append_right x Y)

theorem stats_sublist_fg (stats : Series) :
    stats.Sublist (insert_missing_fg stats) := by
  simp only [insert_missing_fg]
  by_cases h1 : ¬ (containsKey stats "FG%" = true)
  · rw [if_pos h1]
    have s3 : stats.drop 12 = (stats.drop 12).take 2 ++ stats.drop 14 := by
      conv_lhs => rw [← List.take_append_drop 2 (stats.drop 12)]
      rw [drop_drop_eq14]
    have s2 : stats.drop 10 = (stats.drop 10).take 2 ++ stats.drop 12 := by
      conv_lhs => rw [← List.take_append_drop 2 (stats.drop 10)]
      rw [drop_drop_eq]
    conv_lhs => rw [← List.take_append_drop 10 stats, s2, s3]
    simp only [List.append_assoc]
    refine List.Sublist.append (List.Sublist.refl _) ?_
    refine sublist_lift _ _ _ ?_
    refine List.Sublist.append_left ?_ _
    refine sublist_lift _ _ _ ?_
    refine List.Sublist.append_left ?_ _
    exact List.sublist_append_right _ _
  · rw [if_neg h1]
    by_cases h2 : ¬ (containsKey stats "3P%" = true)
    · rw [if_pos h2]
      exact sublist_insertAt stats 13 [("3P%", (0 : ℚ))]
    · rw [if_neg h2]
      by_cases h3 : ¬ (containsKey stats "2P%" = true)
      · rw [if_pos h3]
        exact sublist_insertAt stats 16 [("2P%", (0 : ℚ))]
      · rw [if_neg h3]

theorem fg_sublist_insert_missing (stats : Series) :
    (insert_missing_fg stats).Sublist (insert_missing stats) := by
  simp only [insert_missing]
  by_cases hft : ¬ (containsKey (insert_missing_fg stats) "FT%" = true)
  · rw [if_pos hft]
    exact sublist_insertAt _ 20 [("FT%", (0 : ℚ))]
  · rw [if_neg hft]

/-- Claim C9: normalization is pure insertion: the input series is a sublist
of the output (every existing key/value pair survives, unmodified and in its
original relative order); every output entry is either an input entry or one
of the five zero-valued percentage pairs; and when the field-goal-percentage
key is present while both the three-point and the two-point keys are absent,
only the three-point key is inserted — the two-point key stays absent (the
elif chain inserts at most one of the two). -/
theorem c9_insert_missing_frame (stats : Series) :
    stats.Sublist (insert_missing stats) ∧
    (∀ kv ∈ insert_missing stats, kv ∈ stats ∨
      kv ∈ ([("FG%", 0), ("3P%", 0), ("2P%", 0), ("eFG%", 0), ("FT%", 0)] : Series)) ∧
    (containsKey stats "FG%" = true → containsKey stats "3P%" = false →
      containsKey stats "2P%" = false →
      containsKey (insert_missing stats) "2P%" = false) := by
  have mem_fg : ∀ kv ∈ insert_missing_fg stats, kv ∈ stats ∨
      kv ∈ ([("FG%", 0), ("3P%", 0), ("2P%", 0), ("eFG%", 0), ("FT%", 0)] : Series) := by
    intro kv hkv
    simp only [insert_missing_fg] at hkv
    by_cases h1 : ¬ (containsKey stats "FG%" = true)
    · rw [if_pos h1] at hkv
      simp only [List.append_assoc, List.mem_append, List.mem_cons,
        List.not_mem_nil, or_false] at hkv
      rcases hkv with h | h | h | h | h | (h | h) | h
      · exact Or.inl ((List.take_sublist 10 stats).subset h)
      · exact Or.inr (by simp [h])
      · exact Or.inl (((List.take_sublist 2 _).trans (List.drop_sublist 10 stats)).subset h)
      · exact Or.inr (by simp [h])
      · exact Or.inl (((List.take_sublist 2 _).trans (List.drop_sublist 12 stats)).subset h)
      · exact Or.inr (by simp [h])
      · exact Or.inr (by simp [h])
      · exact Or.inl ((List.drop_sublist 14 stats).subset h)
    · rw [if_neg h1] at hkv
      by_cases h2 : ¬ (containsKey stats "3P%" = true)
      · rw [if_pos h2] at hkv
        simp only [List.append_assoc, List.mem_append, List.mem_cons,
          List.not_mem_nil, or_false] at hkv
        rcases hkv with h | h | h
        · exact Or.inl ((List.take_sublist 13 stats).subset h)
        · exact Or.inr (by simp [h])
        · exact Or.inl ((List.drop_sublist 13 stats).subset h)
      · rw [if_neg h2] at hkv
        by_cases h3 : ¬ (containsKey stats "2P%" = true)
        · rw [if_pos h3] at hkv
          simp only [List.append_assoc, List.mem_append, List.mem_cons,
            List.not_mem_nil, or_false] at hkv
          rcases hkv with h | h | h
          · exact Or.inl ((List.take_sublist 16 stats).subset h)
          · exact Or.inr (by simp [h])
          · exact Or.inl ((List.drop_sublist 16 stats).subset h)
        · rw [if_neg h3] at hkv
          exact Or.inl hkv
  refine ⟨(stats_sublist_fg stats).trans (fg_sublist_insert_missing stats), ?_, ?_⟩
  · intro kv hkv
    simp only [insert_missing] at hkv
    by_cases hft : ¬ (containsKey (insert_missing_fg stats) "FT%" = true)
    · rw [if_pos hft] at hkv
      simp only [List.append_assoc, List.mem_append, List.mem_cons,
        List.not_mem_nil, or_false] at hkv
      rcases hkv with h | h | h
      · exact mem_fg kv ((List.take_sublist 20 _).subset h)
      · exact Or.inr (by simp [h])
      · exact mem_fg kv ((List.drop_sublist 20 _).subset h)
    · rw [if_neg hft] at hkv
      exact mem_fg kv hkv
  · intro hFG h3P h2P
    have hfg2 : containsKey (insert_missing_fg stats) "2P%" = false := by
      simp only [insert_missing_fg]
      rw [if_neg (by simp [hFG]), if_pos (by simp [h3P])]
      simp only [containsKey_append]
      rw [containsKey_false_of_sublist (List.take_sublist 13 stats) h2P,
        containsKey_false_of_sublist (List.drop_sublist 13 stats) h2P]
      rfl
    simp only [insert_missing]
    by_cases hft : ¬ (containsKey (insert_missing_fg stats) "FT%" = true)
    · rw [if_pos hft]
      simp only [containsKey_append]
      rw [containsKey_false_of_sublist (List.take_sublist 20 _) hfg2,
        containsKey_false_of_sublist (List.drop_sublist 20 _) hfg2]
      rfl
    · rw [if_neg hft]
      exact hfg2

/-- Claim C9 witness: the frame conditions evaluated on a one-entry series
that has `FG%` but lacks both `3P%` and `2P%`. -/
theorem c9_insert_missing_frame_witness :
    ([("FG%", (1 : ℚ))] : Series).Sublist (insert_missing [("FG%", (1 : ℚ))]) ∧
    containsKey (insert_missing [("FG%", (1 : ℚ))]) "2P%" = false :=
  ⟨(c9_insert_missing_frame [("FG%", (1 : ℚ))]).1,
   (c9_insert_missing_frame [("FG%", (1 : ℚ))]).2.2 (by decide) (by decide) (by decide)⟩

end NbaHof

namespace NbaHof

/-! ### Lemmas about the sorted groupby index -/

theorem mem_insertSorted {b a : String} {l : List String} :
    b ∈ insertSorted a l ↔ b = a ∨ b ∈ l := by
  induction l with
  | nil => simp [insertSorted]
  | cons c t ih =>
    simp only [insertSorted]
    by_cases h : strLe a c
    · simp [h, List.mem_cons]
    · simp only [h, if_false, Bool.false_eq_true, List.mem_cons, ih]
      tauto

theorem mem_sortStrings {a : String} {l : List String} :
    a ∈ sortStrings l ↔ a ∈ l := by
  induction l with
  | nil => simp [sortStrings]
  | cons c t ih => simp [sortStrings, mem_insertSorted, ih]

/-- Claim C8 (corrected part): an award entry whose team-tier string is
numeric but outside the `team_nums` dictionary ("0" is numeric) gets a NaN
description — `map(team_nums)` yields NaN and string concatenation with NaN
is NaN — and `groupby` then drops the row entirely: the award fetch returns
no count at all for it, contradicting the claim that every numeric-tier
entry has an ordinal label folded in and is counted. -/
theorem c8_awards_counterexample :
    str_isnumeric "0" = true ∧
    fold_description ⟨"All-Defensive Team", some "0"⟩ = none ∧
    get_awards [⟨"All-Defensive Team", some "0"⟩] = [] := by
  exact ⟨rfl, rfl, by decide⟩

/-- Claim C8 as amended: entries whose numeric tier is in the dictionary
("1", "2", "3") get the ordinal label and the word "Team" folded into their
description; entries with a missing or non-numeric tier keep their
description unchanged; entries with a numeric tier outside the dictionary
become NaN and are dropped from the counts; and the fetch result counts the
occurrences of each distinct surviving post-folding description. -/
theorem c8_awards_amended (entries : List AwardEntry) (e : AwardEntry)
    (t lab d : String) (n : Nat) :
    (e.all_nba_team_number = some t → str_isnumeric t = true →
      team_nums t = some lab →
      fold_description e = some (lab ++ " Team " ++ e.description)) ∧
    (e.all_nba_team_number = none → fold_description e = some e.description) ∧
    (e.all_nba_team_number = some t → str_isnumeric t = false →
      fold_description e = some e.description) ∧
    (e.all_nba_team_number = some t → str_isnumeric t = true →
      team_nums t = none → fold_description e = none) ∧
    ((d, n) ∈ get_awards entries →
      n = (entries.filterMap fold_description).count d ∧ 0 < n) ∧
    (d ∈ (get_awards entries).map Prod.fst ↔
      some d ∈ entries.map fold_description) := by
  refine ⟨?_, ?_, ?_, ?_, ?_, ?_⟩
  · intro h1 h2 h3
    simp [fold_description, h1, h2, h3]
  · intro h1
    simp [fold_description, h1]
  · intro h1 h2
    simp [fold_description, h1, h2]
  · intro h1 h2 h3
    simp [fold_description, h1, h2, h3]
  · intro hmem
    simp only [get_awards, List.mem_map] at hmem
    obtain ⟨d', hd', heq⟩ := hmem
    rw [Prod.mk.injEq] at heq
    obtain ⟨rfl, rfl⟩ := heq
    refine ⟨rfl, ?_⟩
    rw [List.count_pos_iff]
    exact List.mem_dedup.mp (mem_sortStrings.mp hd')
  · simp only [get_awards, List.map_map, Function.comp]
    constructor
    · intro h
      simp only [List.mem_map] at h
      obtain ⟨d', hd', rfl⟩ := h
      have := List.mem_dedup.mp (mem_sortStrings.mp hd')
      rw [List.mem_filterMap] at this
      obtain ⟨a, ha, hfa⟩ := this
      exact List.mem_map.mpr ⟨a, ha, hfa⟩
    · intro h
      obtain ⟨a, ha, hfa⟩ := List.mem_map.mp h
      refine List.mem_map.mpr ⟨d, ?_, rfl⟩
      rw [mem_sortStrings, List.mem_dedup, List.mem_filterMap]
      exact ⟨a, ha, hfa⟩

/-- Claim C8 witness: the folding and counting rules evaluated on a
one-entry awards list with tier "1". -/
theorem c8_awards_witness :
    fold_description ⟨"All-NBA", some "1"⟩ =
      some ("1st" ++ " Team " ++ "All-NBA") ∧
    (1 = (([⟨"All-NBA", some "1"⟩] : List AwardEntry).filterMap
        fold_description).count "1st Team All-NBA" ∧ 0 < 1) ∧
    ("1st Team All-NBA" ∈
        (get_awards [⟨"All-NBA", some "1"⟩]).map Prod.fst ↔
      some "1st Team All-NBA" ∈
        ([⟨"All-NBA", some "1"⟩] : List AwardEntry).map fold_description) :=
  ⟨(c8_awards_amended [⟨"All-NBA", some "1"⟩] ⟨"All-NBA", some "1"⟩ "1" "1st"
      "1st Team All-NBA" 1).1 rfl (by decide) rfl,
   (c8_awards_amended [⟨"All-NBA", some "1"⟩] ⟨"All-NBA", some "1"⟩ "1" "1st"
      "1st Team All-NBA" 1).2.2.2.2.1 (by decide),
   (c8_awards_amended [⟨"All-NBA", some "1"⟩] ⟨"All-NBA", some "1"⟩ "1" "1st"
      "1st Team All-NBA" 1).2.2.2.2.2⟩

end NbaHof

namespace NbaHof

/-- Claim C4 (corrected part): re-running the awards stage on its own output
(the stage overwrites its input checkpoint file, so a re-run reads the final
dataset back) is not refused and is not idempotent: with one eligible player
holding one MVP award, the re-run appends the MVP count column a second
time, so the re-run result differs from the first run. -/
theorem c4_rerun_counterexample :
    (inactive_awards
        (inactive_awards [⟨⟨1, "Bob", "B", false⟩, [("GP", 82)]⟩]
          (fun _ => [⟨"MVP", none⟩]) ∅ ∅).1
        (fun _ => [⟨"MVP", none⟩]) ∅ ∅).1 ≠
      (inactive_awards [⟨⟨1, "Bob", "B", false⟩, [("GP", 82)]⟩]
        (fun _ => [⟨"MVP", none⟩]) ∅ ∅).1 := by
  decide

/-- Claim C4 as amended: nothing refuses re-entering a completed stage:
re-running the awards stage on its own output re-applies the whole stage —
the name filters keep every already-filtered row, and the award-count
columns are appended a second time; consequently, whenever the first run
output is nonempty and has at least one award column, the re-run output is
not byte-identical to the first run output. -/
theorem c4_rerun_amended (rows : List PRow) (awardsOf : Nat → List AwardEntry)
    (ii nn : Finset String) :
    (inactive_awards (inactive_awards rows awardsOf ii nn).1 awardsOf ii nn).1 =
      attach_awards (inactive_awards rows awardsOf ii nn).1 awardsOf ∧
    ((inactive_awards rows awardsOf ii nn).1 ≠ [] →
      award_columns (inactive_awards rows awardsOf ii nn).1 awardsOf ≠ [] →
      (inactive_awards (inactive_awards rows awardsOf ii nn).1 awardsOf ii nn).1 ≠
        (inactive_awards rows awardsOf ii nn).1) := by
  have honce : ∀ q ∈ (inactive_awards rows awardsOf ii nn).1,
      q.base.full_name ∉ ii ∧ q.base.full_name ∉ nn := by
    intro q hq
    simp only [inactive_awards, List.mem_filter, decide_eq_true_eq] at hq
    exact ⟨hq.1.2, hq.2⟩
  have hbase : ∀ p ∈ attach_awards (inactive_awards rows awardsOf ii nn).1 awardsOf,
      p.base.full_name ∉ ii ∧ p.base.full_name ∉ nn := by
    intro p hp
    simp only [attach_awards, List.mem_map] at hp
    obtain ⟨q, hq, rfl⟩ := hp
    exact honce q hq
  have hstage : ∀ l : List PRow,
      (∀ p ∈ attach_awards l awardsOf,
        p.base.full_name ∉ ii ∧ p.base.full_name ∉ nn) →
      (inactive_awards l awardsOf ii nn).1 = attach_awards l awardsOf := by
    intro l hl
    simp only [inactive_awards]
    rw [List.filter_eq_self.mpr, List.filter_eq_self.mpr]
    · intro p hp
      exact decide_eq_true (hl p hp).1
    · intro p hp
      exact decide_eq_true (hl p ((List.filter_sublist _).subset hp)).2
  have hmain :
      (inactive_awards (inactive_awards rows awardsOf ii nn).1 awardsOf ii nn).1 =
        attach_awards (inactive_awards rows awardsOf ii nn).1 awardsOf :=
    hstage _ hbase
  refine ⟨hmain, ?_⟩
  intro hne hcols heq
  rw [hmain] at heq
  obtain ⟨p, t, hpt⟩ := List.exists_cons_of_ne_nil hne
  rw [hpt] at heq hcols
  simp only [attach_awards, List.map_cons, List.cons.injEq] at heq
  have hstats := congrArg (fun r => r.stats.length) heq.1
  simp only [List.length_append, List.length_map] at hstats
  have hzero : (award_columns (p :: t) awardsOf).length = 0 := by omega
  exact hcols (List.length_eq_zero.mp hzero)

/-- Claim C4 witness: the amended statement evaluated on the concrete
one-player dataset with one MVP award. -/
theorem c4_rerun_witness :
    (inactive_awards
        (inactive_awards [⟨⟨1, "Bob", "B", false⟩, [("GP", 82)]⟩]
          (fun _ => [⟨"MVP", none⟩]) ∅ ∅).1
        (fun _ => [⟨"MVP", none⟩]) ∅ ∅).1 =
      attach_awards
        (inactive_awards [⟨⟨1, "Bob", "B", false⟩, [("GP", 82)]⟩]
          (fun _ => [⟨"MVP", none⟩]) ∅ ∅).1
        (fun _ => [⟨"MVP", none⟩]) :=
  (c4_rerun_amended [⟨⟨1, "Bob", "B", false⟩, [("GP", 82)]⟩]
    (fun _ => [⟨"MVP", none⟩]) ∅ ∅).1

end NbaHof

namespace NbaHof

theorem state_upd_subsets (row : Row) (st : ExclState) (c : Prop) [Decidable c] :
    (if c then
        { st with inactive_ineligibles := insert row.full_name st.inactive_ineligibles }
      else st).inactive_ineligibles ⊆ insert row.full_name st.inactive_ineligibles ∧
    (if c then
        { st with inactive_ineligibles := insert row.full_name st.inactive_ineligibles }
      else st).never_in_nba ⊆ insert row.full_name st.never_in_nba := by
  by_cases h : c <;>
    simp [h, Finset.subset_insert, Finset.Subset.refl]

/-- Claim C10: both exclusion sets are keyed by the player's full name —
the classifier only ever inserts the processed player's `full_name` into
either set, and the final partition moves or drops rows by testing
`full_name` membership, so two rows of the cohort that share a (corrected)
full name are retained in the eligible dataset together and moved to the
saved ineligible dataset together. -/
theorem c10_name_keyed (rows : List PRow) (awardsOf : Nat → List AwardEntry)
    (ii nn : Finset String) (p q : PRow)
    (hp : p ∈ attach_awards rows awardsOf)
    (hq : q ∈ attach_awards rows awardsOf)
    (hname : p.base.full_name = q.base.full_name) :
    (∀ (row : Row) (season : Int) (pr : PrimaryResult) (sec : SecondaryResult)
        (st : ExclState) (out : Series × ExclState),
      get_totals row season pr sec st = some out →
      out.2.inactive_ineligibles ⊆ insert row.full_name st.inactive_ineligibles ∧
      out.2.never_in_nba ⊆ insert row.full_name st.never_in_nba) ∧
    (p ∈ (inactive_awards rows awardsOf ii nn).1 →
      q ∈ (inactive_awards rows awardsOf ii nn).1) ∧
    (p ∈ (inactive_awards rows awardsOf ii nn).2 →
      q ∈ (inactive_awards rows awardsOf ii nn).2) := by
  refine ⟨?_, ?_, ?_⟩
  · intro row season pr sec st out h
    cases pr with
    | readTimeout => simp [get_totals] at h
    | connectionError => simp [get_totals] at h
    | keyError =>
      cases sec with
      | noExactMatch => simp [get_totals] at h
      | timeout => simp [get_totals] at h
      | page pg =>
        cases hpf : pg.pfCareer with
        | some pfRaw =>
          simp only [get_totals, hpf] at h
          injection h with h
          rw [← h]
          exact state_upd_subsets row st _
        | none =>
          simp only [get_totals, hpf] at h
          injection h with h
          rw [← h]
          exact state_upd_subsets row st _
    | frames f =>
      simp only [get_totals] at h
      by_cases hz : f.seasonStarts.length = 0
      · rw [if_pos hz] at h
        injection h with h
        rw [← h]
        exact ⟨Finset.subset_insert _ _, Finset.Subset.refl _⟩
      · rw [if_neg hz] at h
        by_cases hpo : f.playoffs.length = 0
        · rw [if_pos hpo] at h
          injection h with h
          rw [← h]
          exact state_upd_subsets row st _
        · rw [if_neg hpo] at h
          injection h with h
          rw [← h]
          exact state_upd_subsets row st _
  · intro hmem
    simp only [inactive_awards, List.mem_filter, decide_eq_true_eq] at hmem ⊢
    exact ⟨⟨hq, by rw [← hname]; exact hmem.1.2⟩, by rw [← hname]; exact hmem.2⟩
  · intro hmem
    simp only [inactive_awards, List.mem_filter, decide_eq_true_eq] at hmem ⊢
    exact ⟨hq, by rw [← hname]; exact hmem.2⟩

/-- Claim C10 witness: two distinct players sharing the full name
"John Smith", one of them in the recent-retiree set: both rows are moved to
the saved ineligible dataset together. -/
theorem c10_name_keyed_witness :
    (⟨⟨2, "John Smith", "Smith", false⟩, []⟩ : PRow) ∈
      (inactive_awards
        [⟨⟨1, "John Smith", "Smith", false⟩, []⟩,
         ⟨⟨2, "John Smith", "Smith", false⟩, []⟩]
        (fun _ => []) {"John Smith"} ∅).2 :=
  (c10_name_keyed
    [⟨⟨1, "John Smith", "Smith", false⟩, []⟩,
     ⟨⟨2, "John Smith", "Smith", false⟩, []⟩]
    (fun _ => []) {"John Smith"} ∅
    ⟨⟨1, "John Smith", "Smith", false⟩, []⟩
    ⟨⟨2, "John Smith", "Smith", false⟩, []⟩
    (by decide) (by decide) rfl).2.2 (by decide)

end NbaHof

namespace NbaHof

/-- Claim C3 (corrected part): a never-qualified player of the active cohort
is not dropped from any output: the active player "Gary" has a structurally
valid primary response with zero seasons, is recorded in `never_in_nba`
during the active totals stage, yet the final ineligible dataset still
contains his row — so the union of the two outputs is not the roster minus
the never-qualified set. -/
theorem c3_partition_counterexample :
    pipeline 2025 []
        [⟨⟨1, "Gary", "G", true⟩, .frames ⟨[], [], []⟩, .timeout,
          .frames ⟨[], [], []⟩, .timeout⟩]
        (fun _ => []) =
      some ([], [⟨⟨1, "Gary", "G", true⟩, []⟩], ⟨∅, {"Gary"}⟩) ∧
    "Gary" ∈ ({"Gary"} : Finset String) := by
  exact ⟨by decide, by decide⟩

/-! ### Helper lemmas for the final partition -/

theorem filter_map_g (g : PRow → PRow) (P : PRow → Bool)
    (hP : ∀ p, P (g p) = P p) (l : List PRow) :
    (l.map g).filter P = (l.filter P).map g := by
  induction l with
  | nil => rfl
  | cons a t ih =>
    simp only [List.map_cons, List.filter_cons, hP a]
    by_cases hpa : P a = true
    · simp [hpa, ih]
    · simp [hpa, ih]

theorem map_bid_map_g (g : PRow → PRow) (hg : ∀ p, (g p).base = p.base)
    (l : List PRow) :
    (l.map g).map (fun p => p.base.id) = l.map (fun p => p.base.id) := by
  induction l with
  | nil => rfl
  | cons a t ih =>
    simp only [List.map_cons, ih, hg a]

theorem filter_disjoint_perm (l : List PRow) (p q : PRow → Bool)
    (h : ∀ a ∈ l, ¬(p a = true ∧ q a = true)) :
    List.Perm (l.filter p ++ l.filter q) (l.filter fun a => p a || q a) := by
  induction l with
  | nil => simp
  | cons a t ih =>
    have ht : ∀ x ∈ t, ¬(p x = true ∧ q x = true) :=
      fun x hx => h x (List.mem_cons_of_mem a hx)
    have hih := ih ht
    by_cases hp : p a = true
    · have hq : q a = false := by
        cases hqv : q a
        · rfl
        · exact absurd ⟨hp, hqv⟩ (h a (List.mem_cons_self a t))
      simp only [List.filter_cons, hp, hq, if_true, Bool.false_eq_true, if_false,
        Bool.true_or, List.cons_append]
      exact hih.cons a
    · by_cases hq : q a = true
      · have hp' : p a = false := by
          cases hpv : p a
          · rfl
          · exact absurd hpv hp
        simp only [List.filter_cons, hp', hq, Bool.false_eq_true, if_false, if_true,
          Bool.false_or]
        exact List.perm_middle.trans (hih.cons a)
      · have hp' : p a = false := by
          cases hpv : p a
          · rfl
          · exact absurd hpv hp
        have hq' : q a = false := by
          cases hqv : q a
          · rfl
          · exact absurd hqv hq
        simp only [List.filter_cons, hp', hq', Bool.false_eq_true, if_false,
          Bool.false_or]
        exact hih

end NbaHof

namespace NbaHof

theorem filter_filter_bool (l : List PRow) (p q : PRow → Bool) :
    (l.filter p).filter q = l.filter (fun a => p a && q a) := by
  induction l with
  | nil => rfl
  | cons a t ih =>
    cases hpa : p a <;> cases hqa : q a <;>
      simp [List.filter_cons, hpa, hqa, ih]

/-- Claim C3 as amended: after the final stage of both cohorts, the union of
the identities in the two outputs equals the active roster plus the inactive
roster minus the never-qualified *inactive* players, with no duplicate
identities (given distinct ids and the invariant that no inactive row is in
both exclusion sets); recent-retirees are moved from the eligible dataset
into the ineligible dataset, but a never-qualified player of the *active*
cohort remains in the ineligible output, since `active_awards` never
consults `never_in_nba`. -/
theorem c3_partition_amended (irows arows : List PRow)
    (awardsOf : Nat → List AwardEntry) (ii nn : Finset String)
    (hdisj : ∀ p ∈ irows, ¬(p.base.full_name ∈ ii ∧ p.base.full_name ∈ nn))
    (hids : ((irows ++ arows).map fun p => p.base.id).Nodup) :
    (∀ i : Nat,
      (i ∈ ((inactive_awards irows awardsOf ii nn).1 ++
            active_awards arows awardsOf
              (inactive_awards irows awardsOf ii nn).2).map (fun p => p.base.id)) ↔
        ((∃ p, p ∈ irows ∧ p.base.full_name ∉ nn ∧ p.base.id = i) ∨
          (∃ p, p ∈ arows ∧ p.base.id = i))) ∧
    (((inactive_awards irows awardsOf ii nn).1 ++
        active_awards arows awardsOf
          (inactive_awards irows awardsOf ii nn).2).map (fun p => p.base.id)).Nodup := by
  have hElig : ((inactive_awards irows awardsOf ii nn).1).map (fun p => p.base.id) =
      ((irows.filter fun p => decide (p.base.full_name ∉ ii)).filter
        (fun p => decide (p.base.full_name ∉ nn))).map (fun p => p.base.id) := by
    simp only [inactive_awards, attach_awards]
    rw [filter_map_g, filter_map_g, map_bid_map_g]
    · intro p; rfl
    · intro p; rfl
    · intro p; rfl
  have hMoved : ((inactive_awards irows awardsOf ii nn).2).map (fun p => p.base.id) =
      (irows.filter fun p => decide (p.base.full_name ∈ ii)).map
        (fun p => p.base.id) := by
    simp only [inactive_awards, attach_awards]
    rw [filter_map_g, map_bid_map_g]
    · intro p; rfl
    · intro p; rfl
  have hAct : (attach_awards arows awardsOf).map (fun p => p.base.id) =
      arows.map (fun p => p.base.id) := by
    simp only [attach_awards]
    rw [map_bid_map_g]
    intro p; rfl
  have hL : ((inactive_awards irows awardsOf ii nn).1 ++
        active_awards arows awardsOf
          (inactive_awards irows awardsOf ii nn).2).map (fun p => p.base.id) =
      ((irows.filter fun p => decide (p.base.full_name ∉ ii)).filter
          (fun p => decide (p.base.full_name ∉ nn))).map (fun p => p.base.id) ++
        (arows.map (fun p => p.base.id) ++
          (irows.filter fun p => decide (p.base.full_name ∈ ii)).map
            (fun p => p.base.id)) := by
    simp only [active_awards, List.map_append, List.append_assoc]
    rw [hElig, hMoved, hAct]
  refine ⟨?_, ?_⟩
  · intro i
    rw [hL]
    simp only [List.mem_append, List.mem_map, List.mem_filter, decide_eq_true_eq]
    constructor
    · rintro (⟨p, ⟨⟨hpI, hpii⟩, hpnn⟩, rfl⟩ | ⟨p, hpA, rfl⟩ | ⟨p, ⟨hpI, hpii⟩, rfl⟩)
      · exact Or.inl ⟨p, hpI, hpnn, rfl⟩
      · exact Or.inr ⟨p, hpA, rfl⟩
      · exact Or.inl ⟨p, hpI, fun hnn => hdisj p hpI ⟨hpii, hnn⟩, rfl⟩
    · rintro (⟨p, hpI, hpnn, rfl⟩ | ⟨p, hpA, rfl⟩)
      · by_cases hpii : p.base.full_name ∈ ii
        · exact Or.inr (Or.inr ⟨p, ⟨hpI, hpii⟩, rfl⟩)
        · exact Or.inl ⟨p, ⟨⟨hpI, hpii⟩, hpnn⟩, rfl⟩
      · exact Or.inr (Or.inl ⟨p, hpA, rfl⟩)
  · rw [hL]
    have hdisj2 : ∀ a ∈ irows,
        ¬(((fun p : PRow => decide (p.base.full_name ∉ ii)) a &&
            (fun p : PRow => decide (p.base.full_name ∉ nn)) a) = true ∧
          (fun p : PRow => decide (p.base.full_name ∈ ii)) a = true) := by
      intro a _ hc
      rcases hc with ⟨hab, hcc⟩
      simp only [Bool.and_eq_true, decide_eq_true_eq] at hab hcc
      exact hab.1 hcc
    have permEM :
        List.Perm
          (((irows.filter fun p => decide (p.base.full_name ∉ ii)).filter
              (fun p => decide (p.base.full_name ∉ nn))).map (fun p => p.base.id) ++
            (irows.filter fun p => decide (p.base.full_name ∈ ii)).map
              (fun p => p.base.id))
          ((irows.filter fun a =>
              ((decide (a.base.full_name ∉ ii) && decide (a.base.full_name ∉ nn)) ||
                decide (a.base.full_name ∈ ii))).map (fun p => p.base.id)) := by
      rw [filter_filter_bool, ← List.map_append]
      exact (filter_disjoint_perm irows _ _ hdisj2).map _
    have hn0 : ((irows.map fun p => p.base.id) ++
        (arows.map fun p => p.base.id)).Nodup := by
      rw [← List.map_append]
      exact hids
    have hsub :
        ((irows.filter fun a =>
            ((decide (a.base.full_name ∉ ii) && decide (a.base.full_name ∉ nn)) ||
              decide (a.base.full_name ∈ ii))).map (fun p => p.base.id)).Sublist
          (irows.map fun p => p.base.id) :=
      (List.filter_sublist irows).map _
    have hn1 : (((irows.filter fun a =>
        ((decide (a.base.full_name ∉ ii) && decide (a.base.full_name ∉ nn)) ||
          decide (a.base.full_name ∈ ii))).map (fun p => p.base.id)) ++
        (arows.map fun p => p.base.id)).Nodup :=
      hn0.sublist (hsub.append (List.Sublist.refl _))
    have hperm2 :
        List.Perm
          (((irows.filter fun p => decide (p.base.full_name ∉ ii)).filter
              (fun p => decide (p.base.full_name ∉ nn))).map (fun p => p.base.id) ++
            ((arows.map fun p => p.base.id) ++
              (irows.filter fun p => decide (p.base.full_name ∈ ii)).map
                (fun p => p.base.id)))
          (((irows.filter fun a =>
              ((decide (a.base.full_name ∉ ii) && decide (a.base.full_name ∉ nn)) ||
                decide (a.base.full_name ∈ ii))).map (fun p => p.base.id)) ++
            (arows.map fun p => p.base.id)) := by
      refine List.Perm.trans ?_ (permEM.append_right _)
      refine List.Perm.trans (List.Perm.append_left _ List.perm_append_comm) ?_
      rw [List.append_assoc]
    exact hperm2.symm.nodup hn1
end NbaHof

namespace NbaHof

/-- Concrete inactive cohort for the partition witness: a recent-retiree
"Ron" and a normal retiree "Ed". -/
def c3irows : List PRow :=
  [⟨⟨1, "Ron", "R", false⟩, []⟩, ⟨⟨2, "Ed", "E", false⟩, []⟩]

/-- Concrete active cohort for the partition witness. -/
def c3arows : List PRow :=
  [⟨⟨3, "Al", "A", true⟩, []⟩]

/-- Claim C3 witness: the amended partition statement evaluated on the
concrete cohorts, at the identity of "Ed". -/
theorem c3_partition_witness :
    ((2 : Nat) ∈ ((inactive_awards c3irows (fun _ => []) {"Ron"} ∅).1 ++
          active_awards c3arows (fun _ => [])
            (inactive_awards c3irows (fun _ => []) {"Ron"} ∅).2).map
          (fun p => p.base.id) ↔
      ((∃ p, p ∈ c3irows ∧ p.base.full_name ∉ (∅ : Finset String) ∧
          p.base.id = 2) ∨
        (∃ p, p ∈ c3arows ∧ p.base.id = 2))) ∧
    (((inactive_awards c3irows (fun _ => []) {"Ron"} ∅).1 ++
        active_awards c3arows (fun _ => [])
          (inactive_awards c3irows (fun _ => []) {"Ron"} ∅).2).map
        (fun p => p.base.id)).Nodup :=
  ⟨(c3_partition_amended c3irows c3arows (fun _ => []) {"Ron"} ∅
      (by decide) (by decide)).1 2,
   (c3_partition_amended c3irows c3arows (fun _ => []) {"Ron"} ∅
      (by decide) (by decide)).2⟩

end NbaHof
